import Mathlib

/-!
Shallow embedding of `src/palimpzest/utils/experiment_utils.py`
(`load_ground_truth`, `compute_f1`, `write_results_and_plans`) together with
theorems settling the specification claims about these functions.

Modelling conventions:

* A pandas cell is modelled by `Cell`: a string, an integer, or NaN (the value
  pandas substitutes for a missing cell).  Python `str(...)`, `int(...)` and
  truthiness on such values are modelled by `cellStr`, `cellToInt`,
  `cellTruthy`.
* Python `str.strip()` / `str.lower()` are modelled by `pstrip` / `plower`
  (ASCII whitespace / ASCII case, which covers every string the claims and
  the repository's data touch).
* A parsed CSV is a `DataFrame` (column names plus rows of cells); the three
  ways `pd.read_csv` can end (missing path, parse exception, success) are the
  constructors of `CsvInput`.
* Python exceptions escaping a function are modelled with `Except String`;
  an exception caught inside the function never surfaces in the result.
* Python `dict` is modelled as an association list with `dinsert`
  (update-in-place on an existing key, append otherwise), preserving the
  insertion/iteration order that `dict.items()` exposes.
-/

/-- Characters stripped by Python `str.strip()` (the ASCII whitespace set). -/
def pIsSpace (c : Char) : Bool :=
  c = ' ' || c = '\t' || c = '\n' || c = '\r' || c = '\x0b' || c = '\x0c'

/-- Drop trailing whitespace characters from a character list. -/
def dropTrail : List Char → List Char
  | [] => []
  | a :: t =>
    let r := dropTrail t
    if r.isEmpty && pIsSpace a then [] else a :: r

/-- Model of Python `str.strip()`: remove leading and trailing whitespace. -/
def pstrip (s : String) : String :=
  ⟨dropTrail (s.data.dropWhile pIsSpace)⟩

/-- Model of Python `str.lower()` (ASCII case mapping, as `Char.toLower`). -/
def plower (s : String) : String :=
  ⟨s.data.map Char.toLower⟩

/-- Parse a nonempty run of decimal digits, rejecting any other character. -/
def digitsToNatAux : List Char → Nat → Option Nat
  | [], acc => some acc
  | c :: t, acc =>
    if '0' ≤ c ∧ c ≤ '9' then digitsToNatAux t (acc * 10 + (c.toNat - 48))
    else none

/-- Digits-only parse of a character list; `none` on an empty list. -/
def digitsToNat : List Char → Option Nat
  | [] => none
  | l => digitsToNatAux l 0

/-- Model of Python `int(...)` on a string: optional surrounding whitespace,
optional sign, then decimal digits; anything else raises (`none`). -/
def pToInt? (s : String) : Option Int :=
  match (pstrip s).data with
  | '-' :: ds => (digitsToNat ds).map (fun n => -(n : Int))
  | '+' :: ds => (digitsToNat ds).map (fun n => (n : Int))
  | ds => (digitsToNat ds).map (fun n => (n : Int))

/-- A pandas cell value: a string, an integer, or NaN (missing value). -/
inductive Cell where
  | str (s : String)
  | int (n : Int)
  | nan
  deriving DecidableEq, Repr

/-- Model of Python `str(...)` on a cell (`str(float("nan")) = "nan"`). -/
def cellStr : Cell → String
  | .str s => s
  | .int n => toString n
  | .nan => "nan"

/-- Model of Python `int(...)` on a cell: `none` when `int` raises
(`int` of a non-numeric string or of NaN raises `ValueError`; `int` strips
surrounding whitespace from a string first). -/
def cellToInt : Cell → Option Int
  | .str s => pToInt? s
  | .int n => some n
  | .nan => none

/-- Model of Python truthiness on a cell (`bool("") = False`, `bool(0) = False`,
and NaN is truthy). -/
def cellTruthy : Cell → Bool
  | .str s => s ≠ ""
  | .int n => n ≠ 0
  | .nan => true

/-- A parsed CSV table: column names and rows of cells (each row has one cell
per column). -/
structure DataFrame where
  columns : List String
  rows : List (List Cell)
  deriving DecidableEq, Repr

/-- Outcome of `pd.read_csv(gt_path)` as seen by `load_ground_truth`:
the path check fails, reading/parsing raises, or a table is produced. -/
inductive CsvInput where
  | missing
  | parseError
  | ok (df : DataFrame)
  deriving DecidableEq, Repr

/-- Line 21 of the source: `df.columns = [c.strip().lower() for c in df.columns]`. -/
def normCols (df : DataFrame) : List String :=
  df.columns.map (fun c => plower (pstrip c))

/-- Label-based cell access `row[c]` / `row.get(c)`: the cell at the first
column named `c`. -/
def colCell (cols : List String) (row : List Cell) (c : String) : Option Cell :=
  (cols.findIdx? (fun x => x = c)).bind (fun i => row.get? i)

/-- First candidate column name (in priority order) present among `cols`,
modelling `for cand in (...): if cand in df.columns: ...; break`. -/
def firstCol? (cols : List String) (cands : List String) : Option String :=
  cands.find? (fun c => cols.contains c)

/-- Python `dict` assignment `d[k] = v` on an association list: replace the
value at an existing key in place, otherwise append the new pair. -/
def dinsert {α : Type} (l : List (String × α)) (k : String) (v : α) :
    List (String × α) :=
  if l.any (fun p => p.1 = k) then
    l.map (fun p => if p.1 = k then (k, v) else p)
  else l ++ [(k, v)]

/-- Ground-truth index: flat variant (identifier ↦ 0/1 label, used by the
`enron` and `real-estate` workloads) or nested variant (source key ↦
(attribute ↦ should-exist flag), used by `medical-schema-matching`). -/
inductive GTData where
  | flat (entries : List (String × Int))
  | nested (entries : List (String × List (String × Bool)))
  deriving DecidableEq, Repr

/-- Python truthiness `not gt_data` on the ground-truth dict. -/
def GTData.isEmpty : GTData → Bool
  | .flat l => l.isEmpty
  | .nested l => l.isEmpty

/-- The `{}` returned before any workload branch runs, tagged with the shape
the workload's consumer expects. -/
def emptyIndexFor (workload : String) : GTData :=
  if workload = "medical-schema-matching" then .nested [] else .flat []

/-- Lines 29-35 of the source: the `enron` identifier for one row — the first
candidate column among `filename`/`file`/`name`, stringified and stripped;
if that is falsy (no candidate column, or an empty cell) fall back to the
stripped string of the row's first cell (`row.iloc[0]`). -/
def enronFname (cols : List String) (row : List Cell) : String :=
  let viaCand : Option String :=
    (firstCol? cols ["filename", "file", "name"]).map
      (fun c => pstrip (cellStr ((colCell cols row c).getD (Cell.str ""))))
  match viaCand with
  | some f =>
    if f = "" then pstrip (cellStr ((row.get? 0).getD Cell.nan)) else f
  | none => pstrip (cellStr ((row.get? 0).getD Cell.nan))

/-- Lines 37-46 of the source: the `enron` label for one row — `int(...)` of
the first candidate column among `label`/`y`/`target`, defaulting to `1` when
no candidate column exists or `int` raises. -/
def enronLabel (cols : List String) (row : List Cell) : Int :=
  match firstCol? cols ["label", "y", "target"] with
  | some c =>
    match cellToInt ((colCell cols row c).getD (Cell.int 1)) with
    | some n => n
    | none => 1
  | none => 1

/-- Lines 27-50 of the source: the `enron` row loop, keeping only identifiers
present in the dataset-directory listing. -/
def enronGT (cols : List String) (dir : List String) :
    List (List Cell) → List (String × Int) → List (String × Int)
  | [], gt => gt
  | row :: rest, gt =>
    let fname := enronFname cols row
    let label := enronLabel cols row
    enronGT cols dir rest
      (if dir.contains fname then dinsert gt fname label else gt)

/-- Lines 57-68 of the source: one `real-estate` row.  The row is skipped when
no candidate identifier column exists or the cell is falsy; when a `label`
column exists, `int(row[label_col])` is UNGUARDED and a failing conversion
raises `ValueError` out of the loader. -/
def realEstateStep (cols : List String) (dir : List String)
    (labelCol : Option String) (row : List Cell)
    (gt : List (String × Int)) : Except String (List (String × Int)) :=
  match firstCol? cols ["listing", "filename", "id", "name"] with
  | none => .ok gt
  | some c =>
    match cellTruthy ((colCell cols row c).getD Cell.nan) with
    | false => .ok gt
    | true =>
      let listing_id := pstrip (cellStr ((colCell cols row c).getD Cell.nan))
      match labelCol with
      | some lc =>
        match cellToInt ((colCell cols row lc).getD Cell.nan) with
        | some n =>
          .ok (if dir.contains listing_id then dinsert gt listing_id n else gt)
        | none => .error "ValueError: invalid literal for int() with base 10"
      | none =>
        .ok (if dir.contains listing_id then dinsert gt listing_id 1 else gt)

/-- The `real-estate` row loop (lines 55-69 of the source). -/
def realEstateGT (cols : List String) (dir : List String)
    (labelCol : Option String) :
    List (List Cell) → List (String × Int) → Except String (List (String × Int))
  | [], gt => .ok gt
  | row :: rest, gt =>
    match realEstateStep cols dir labelCol row gt with
    | .ok gt' => realEstateGT cols dir labelCol rest gt'
    | .error e => .error e

/-- Line 83 of the source: `original_col.lower() != "missing" and
original_col.lower() != "nan"` — note that the cell string is lower-cased but
NOT stripped before the comparison. -/
def shouldExistStr (s : String) : Bool :=
  plower s ≠ "missing" && plower s ≠ "nan"

/-- Lines 78-84 of the source: one `medical-schema-matching` row for a fixed
author column — record the should-exist flag under the stripped attribute name
taken from the first column. -/
def medicalRow (cols : List String) (author : String) (row : List Cell)
    (m : List (String × Bool)) : List (String × Bool) :=
  match cols with
  | [] => m
  | c0 :: _ =>
    let attr := (colCell cols row c0).getD Cell.nan
    let original := cellStr ((colCell cols row author).getD Cell.nan)
    dinsert m (pstrip (cellStr attr)) (shouldExistStr original)

/-- The inner row loop of the `medical-schema-matching` branch for one author. -/
def medicalAuthor (cols : List String) (rows : List (List Cell))
    (author : String) : List (String × Bool) :=
  rows.foldl (fun m row => medicalRow cols author row m) []

/-- Lines 73-85 of the source: every column after the first is a source
(author); its key is the lower-cased, stripped column name. -/
def medicalGT (cols : List String) (rows : List (List Cell)) :
    List (String × List (String × Bool)) :=
  (cols.drop 1).foldl
    (fun gm a => dinsert gm (pstrip (plower a)) (medicalAuthor cols rows a)) []

instance {ε α : Type} [DecidableEq ε] [DecidableEq α] :
    DecidableEq (Except ε α) := fun a b =>
  match a, b with
  | .ok x, .ok y =>
    match decEq x y with
    | isTrue h => isTrue (by rw [h])
    | isFalse h => isFalse (by intro hc; cases hc; exact h rfl)
  | .error x, .error y =>
    match decEq x y with
    | isTrue h => isTrue (by rw [h])
    | isFalse h => isFalse (by intro hc; cases hc; exact h rfl)
  | .ok _, .error _ => isFalse (by intro hc; cases hc)
  | .error _, .ok _ => isFalse (by intro hc; cases hc)

/-- `load_ground_truth(workload, gt_path, dataset_dir)` (lines 15-87 of the
source).  `csv` is the outcome of the path check plus `pd.read_csv`;
`dataset_dir` is `some listing` when the directory exists (with its
`os.listdir` contents) and `none` otherwise.  The result is `Except` because
the `real-estate` branch can raise (see `realEstateStep`). -/
def load_ground_truth (workload : String) (csv : CsvInput)
    (dataset_dir : Option (List String)) : Except String GTData :=
  match csv with
  | .missing => .ok (emptyIndexFor workload)
  | .parseError => .ok (emptyIndexFor workload)
  | .ok df =>
    let cols := normCols df
    if workload = "enron" then
      .ok (.flat (enronGT cols (dataset_dir.getD []) df.rows []))
    else if workload = "real-estate" then
      let labelCol := if cols.contains "label" then some "label" else none
      match realEstateGT cols (dataset_dir.getD []) labelCol df.rows [] with
      | .ok gt => .ok (.flat gt)
      | .error e => .error e
    else if workload = "medical-schema-matching" then
      .ok (.nested (medicalGT cols df.rows))
    else .ok (.flat [])

/-- A pipeline result record: named fields reachable by attribute access
(`getattr`).  The fields the harness reads are strings. -/
structure ResultRecord where
  attrs : List (String × String)
  deriving DecidableEq, Repr

/-- Line 97 of the source: the workload-specific key attribute for the flat
scoring branch. -/
def keyAttrOf (workload : String) : String :=
  if workload = "enron" then "filename" else "listing"

/-- Line 98 of the source: the set of predicted identifiers —
`{getattr(r, key_attr).strip() for r in results if hasattr(r, key_attr)}`. -/
def predictedPositives (results : List ResultRecord) (key_attr : String) :
    List String :=
  results.filterMap (fun r => (r.attrs.lookup key_attr).map pstrip)

/-- Lines 100-102 of the source: the flat-variant true/predicted vectors,
one entry per ground-truth item, in index iteration order. -/
def flatVectors (results : List ResultRecord) (entries : List (String × Int))
    (key_attr : String) : List Int × List Int :=
  let preds := predictedPositives results key_attr
  (entries.map (fun e => e.2),
   entries.map (fun e => if preds.contains e.1 then 1 else 0))

/-- Leading-segment test on character lists. -/
def isLeadingSeg : List Char → List Char → Bool
  | [], _ => true
  | _ :: _, [] => false
  | a :: as, b :: bs => a == b && isLeadingSeg as bs

/-- Substring test on character lists (`needle in hay` for Python strings). -/
def hasSubstr (needle : String) (hay : String) : Bool :=
  go needle.data hay.data
where
  go (n : List Char) : List Char → Bool
    | [] => n.isEmpty
    | c :: t => isLeadingSeg n (c :: t) || go n t

/-- Lines 105-115 of the source: the `medical-schema-matching` vectors
contributed by one record.  The record's `filename` (default `''`) is
lower-cased; the FIRST ground-truth source key that occurs in it as a
substring selects the targets; a record matching no key contributes nothing.
For each target attribute, true gets the should-exist flag and predicted gets
whether the record has that attribute with a non-empty stripped value. -/
def medicalRecordVectors (gt : List (String × List (String × Bool)))
    (r : ResultRecord) : List Int × List Int :=
  let fname := (r.attrs.lookup "filename").getD ""
  match gt.find? (fun kv => hasSubstr kv.1 (plower fname)) with
  | none => ([], [])
  | some kv =>
    (kv.2.map (fun t => if t.2 then 1 else 0),
     kv.2.map (fun t =>
       match r.attrs.lookup t.1 with
       | some v => if pstrip v ≠ "" then 1 else 0
       | none => 0))

/-- The record loop of the `medical-schema-matching` scoring branch. -/
def medicalVectors (gt : List (String × List (String × Bool)))
    (results : List ResultRecord) : List Int × List Int :=
  results.foldl
    (fun acc r =>
      let v := medicalRecordVectors gt r
      (acc.1 ++ v.1, acc.2 ++ v.2))
    ([], [])

/-- Count of vector positions with true value `a` and predicted value `b`. -/
def pairCount (y_true y_pred : List Int) (a b : Int) : Nat :=
  ((y_true.zip y_pred).filter (fun q => q.1 = a && q.2 = b)).length

/-- `sklearn.metrics.precision_score(..., average='binary', zero_division=0)`
on 0/1 vectors: TP / (TP + FP), and 0 instead of dividing by zero. -/
def precisionBinary (y_true y_pred : List Int) : ℚ :=
  let tp := pairCount y_true y_pred 1 1
  let fp := pairCount y_true y_pred 0 1
  if tp + fp = 0 then 0 else (tp : ℚ) / ((tp : ℚ) + (fp : ℚ))

/-- `sklearn.metrics.recall_score(..., average='binary', zero_division=0)`
on 0/1 vectors: TP / (TP + FN), and 0 instead of dividing by zero. -/
def recallBinary (y_true y_pred : List Int) : ℚ :=
  let tp := pairCount y_true y_pred 1 1
  let fn := pairCount y_true y_pred 1 0
  if tp + fn = 0 then 0 else (tp : ℚ) / ((tp : ℚ) + (fn : ℚ))

/-- `sklearn.metrics.f1_score(..., average='binary', zero_division=0)` on 0/1
vectors: 2·TP / (2·TP + FP + FN), and 0 instead of dividing by zero. -/
def f1Binary (y_true y_pred : List Int) : ℚ :=
  let tp := pairCount y_true y_pred 1 1
  let fp := pairCount y_true y_pred 0 1
  let fn := pairCount y_true y_pred 1 0
  if 2 * tp + fp + fn = 0 then 0
  else 2 * (tp : ℚ) / (2 * (tp : ℚ) + (fp : ℚ) + (fn : ℚ))

/-- Micro-averaged precision/recall/F1 for single-label 0/1 vectors: each
sample contributes one prediction over the label set, so the micro sums make
precision, recall and F1 all equal the fraction of positions where the
vectors agree. -/
def f1Micro (y_true y_pred : List Int) : ℚ :=
  if y_true.length = 0 then 0
  else (((y_true.zip y_pred).filter (fun q => q.1 = q.2)).length : ℚ) /
    (y_true.length : ℚ)

/-- Lines 90-124 of the source: dispatch on workload, build the vectors, and
score them.  An empty ground-truth dict returns `0.0` before any vector is
built; empty vectors also return `0.0`.  A ground-truth value of the shape the
branch does not expect cannot be produced by `load_ground_truth` for that
workload and is modelled as contributing no vector entries. -/
def compute_f1 (results : List ResultRecord) (gt_data : GTData)
    (workload : String) : ℚ :=
  if gt_data.isEmpty then 0
  else
    let v : List Int × List Int :=
      if workload = "enron" || workload = "real-estate" then
        match gt_data with
        | .flat entries => flatVectors results entries (keyAttrOf workload)
        | .nested _ => ([], [])
      else if workload = "medical-schema-matching" then
        match gt_data with
        | .nested g => medicalVectors g results
        | .flat _ => ([], [])
      else ([], [])
    if v.1.isEmpty then 0
    else if workload ≠ "medical-schema-matching" then f1Binary v.1 v.2
    else f1Micro v.1 v.2

/-- Numeric and plan-text attributes of one per-plan stats object.
`num_attrs` backs the defensive `getattr(first_ps, alias, None)` probing for
cost/time; `plan_str` is `none` when the object lacks the attribute (so that
`stats.plan_str` raises `AttributeError`). -/
structure PerPlanStats where
  num_attrs : List (String × ℚ)
  plan_str : Option String
  deriving DecidableEq, Repr

/-- The `plan_stats` attribute of an execution-stats object: absent
(`getattr` yields `None`, direct access raises), present but malformed
(truthy, yet iterating it raises — the exception the lenient block swallows),
or a mapping whose values are listed in iteration order. -/
inductive PlanStatsAttr where
  | missing
  | malformed
  | stats (l : List PerPlanStats)
  deriving DecidableEq, Repr

/-- An execution-statistics object. -/
structure ExecStats where
  plan_stats : PlanStatsAttr
  deriving DecidableEq, Repr

/-- One run output consumed by `write_results_and_plans`: an optional
`execution_stats` attribute (absent or `None` collapse to `none`) and the
result records the run yields when iterated (line 172 passes the run object
itself to `compute_f1`). -/
structure RunOutput where
  execution_stats : Option ExecStats
  records : List ResultRecord
  deriving DecidableEq, Repr

/-- Line 156 of the source: the prioritized legacy aliases for plan cost. -/
def costAliases : List String :=
  ["total_plan_cost", "total_cost", "cost", "plan_cost"]

/-- Line 161 of the source: the prioritized legacy aliases for plan time. -/
def timeAliases : List String :=
  ["total_plan_time", "total_time", "time", "plan_time"]

/-- Lines 156-165 of the source: probe attribute aliases in order, stopping at
the first whose value is not `None`; keep the `0.0` default otherwise. -/
def probeAliases (ps : PerPlanStats) : List String → ℚ
  | [] => 0
  | a :: rest =>
    match ps.num_attrs.lookup a with
    | some v => v
    | none => probeAliases ps rest

/-- Lines 148-167 of the source: the guarded cost/time extraction.  Both
values default to `0.0` when `execution_stats` is `None`/absent, when
`plan_stats` is absent or falsy (empty), or when the guarded block raises
(the `except: pass` keeps the defaults). -/
def extract_cost_time (res : RunOutput) : ℚ × ℚ :=
  match res.execution_stats with
  | none => (0, 0)
  | some es =>
    match es.plan_stats with
    | .missing => (0, 0)
    | .malformed => (0, 0)
    | .stats [] => (0, 0)
    | .stats (first :: _) =>
      (probeAliases first costAliases, probeAliases first timeAliases)

/-- Lines 174-178 of the source: the UNGUARDED plan-text extraction —
`res.execution_stats`, then `list(exec_stats.plan_stats.values())[0]`, then
`stats.plan_str`; every missing piece raises out of the loop. -/
def extract_plan_text (res : RunOutput) : Except String String :=
  match res.execution_stats with
  | none => .error "AttributeError: execution_stats"
  | some es =>
    match es.plan_stats with
    | .missing => .error "AttributeError: plan_stats"
    | .malformed => .error "TypeError: plan_stats is not iterable"
    | .stats [] => .error "IndexError: list index out of range"
    | .stats (first :: _) =>
      match first.plan_str with
      | none => .error "AttributeError: plan_str"
      | some s => .ok s

/-- One row of the summary table (lines 187-196 of the source), with the CSV
column order Workload, Strategy, Time (s), Cost ($), F1 Score, Plan_File. -/
structure SummaryRow where
  workload : String
  strategy : String
  time_sec : ℚ
  cost : ℚ
  f1 : ℚ
  plan_file : String
  deriving DecidableEq, Repr

/-- Outcome of a reporting pass: either every run was processed, the summary
table was serialized and the plan-text files in `files` were written; or a
hard failure aborted the loop after writing `files`, and NO table exists. -/
inductive ReportResult where
  | ok (files : List (String × String)) (table : List SummaryRow)
  | failed (files : List (String × String)) (err : String)
  deriving DecidableEq, Repr

/-- Whether the reporting pass raised to its caller. -/
def ReportResult.isFailed : ReportResult → Bool
  | .ok _ _ => false
  | .failed _ _ => true

/-- The path `os.path.join(plan_details_dir, f"{idx}.txt")`. -/
def planPath (plan_details_dir : String) (idx : Nat) : String :=
  plan_details_dir ++ "/" ++ toString idx ++ ".txt"

/-- Lines 147-196 of the source: the per-run loop.  `writeFails p` models the
file system raising inside `open(p, "w")`/`write` (that exception is
swallowed: the run still gets its summary row, only the file is missing).
The unused `pd.DataFrame(res)` on line 170 has no effect on any output and is
not modelled. -/
def reportGo (gt_data : GTData) (workload plan_details_dir : String)
    (writeFails : String → Bool) :
    List RunOutput → Nat → List (String × String) → List SummaryRow →
    ReportResult
  | [], _, files, rows => .ok files rows
  | res :: rest, idx, files, rows =>
    let ct := extract_cost_time res
    let f1 := compute_f1 res.records gt_data workload
    match extract_plan_text res with
    | .error e => .failed files e
    | .ok plan_texts =>
      let pf := planPath plan_details_dir idx
      let files' := if writeFails pf then files else files ++ [(pf, plan_texts)]
      let row : SummaryRow :=
        ⟨workload, "Plan-" ++ toString idx, ct.2, ct.1, f1,
          toString idx ++ ".txt"⟩
      reportGo gt_data workload plan_details_dir writeFails rest (idx + 1)
        files' (rows ++ [row])

/-- Lines 127-202 of the source: `write_results_and_plans`, with the results
iterable already materialized into a list (line 142) and `output_csv` kept
only as the destination of the final table. -/
def write_results_and_plans (results : List RunOutput) (gt_data : GTData)
    (output_csv plan_details_dir workload : String)
    (writeFails : String → Bool) : ReportResult :=
  let _ := output_csv
  reportGo gt_data workload plan_details_dir writeFails results 1 [] []

/-- The spec's formulation of the probing target: the first per-plan stats
entry, available exactly when execution statistics are present, iterable and
non-empty.  Named separately so the code's probing loop can be compared
against it. -/
def specFirstPlanStats (res : RunOutput) : Option PerPlanStats :=
  match res.execution_stats with
  | some ⟨.stats (f :: _)⟩ => some f
  | _ => none


/-- The summary row the loop builds for run `r` at 1-based ordinal `idx`. -/
def expectedRow (gt_data : GTData) (workload : String) (idx : Nat)
    (r : RunOutput) : SummaryRow :=
  ⟨workload, "Plan-" ++ toString idx, (extract_cost_time r).2,
    (extract_cost_time r).1, compute_f1 r.records gt_data workload,
    toString idx ++ ".txt"⟩

/-- The summary rows a fully successful pass accumulates from `idx` on. -/
def expectedRows (gt_data : GTData) (workload : String) :
    Nat → List RunOutput → List SummaryRow
  | _, [] => []
  | idx, r :: rest =>
    expectedRow gt_data workload idx r ::
      expectedRows gt_data workload (idx + 1) rest

/-- The plan-text files a fully successful pass writes from `idx` on
(a run whose write fails contributes no file). -/
def expectedFiles (plan_dir : String) (wf : String → Bool) :
    Nat → List RunOutput → List (String × String)
  | _, [] => []
  | idx, r :: rest =>
    (match extract_plan_text r with
      | .ok t =>
        if wf (planPath plan_dir idx) then []
        else [(planPath plan_dir idx, t)]
      | .error _ => []) ++ expectedFiles plan_dir wf (idx + 1) rest


section Helpers

/-- The head of a `dropWhile` result never satisfies the predicate. -/
theorem dropWhile_head_false {α : Type} {p : α → Bool} :
    ∀ (l : List α) (a : α) (t : List α), l.dropWhile p = a :: t → p a = false := by
  intro l
  induction l with
  | nil => intro a t h; simp at h
  | cons b bs ih =>
    intro a t h
    by_cases hb : p b
    · rw [List.dropWhile_cons, if_pos hb] at h
      exact ih a t h
    · rw [List.dropWhile_cons, if_neg hb] at h
      cases h
      simpa using hb

/-- Unfolding equation of `dropTrail` on a cons cell. -/
theorem dropTrail_cons (a : Char) (t : List Char) :
    dropTrail (a :: t) =
      if (dropTrail t).isEmpty && pIsSpace a then [] else a :: dropTrail t := rfl

/-- `dropTrail` either empties a cons cell or keeps its head. -/
theorem dropTrail_shape (a : Char) (t : List Char) :
    dropTrail (a :: t) = [] ∨ dropTrail (a :: t) = a :: dropTrail t := by
  rw [dropTrail_cons]
  split
  · exact Or.inl rfl
  · exact Or.inr rfl

/-- `dropTrail` is idempotent. -/
theorem dropTrail_idem : ∀ l : List Char, dropTrail (dropTrail l) = dropTrail l := by
  intro l
  induction l with
  | nil => rfl
  | cons a t ih =>
    cases h : ((dropTrail t).isEmpty && pIsSpace a) with
    | true => rw [dropTrail_cons, h]; simp; rfl
    | false =>
      rw [dropTrail_cons, h]
      simp only [if_neg Bool.false_ne_true]
      rw [dropTrail_cons a (dropTrail t), ih, h]
      simp

/-- The model of Python `str.strip()` is idempotent. -/
theorem pstrip_idem (s : String) : pstrip (pstrip s) = pstrip s := by
  unfold pstrip
  show (⟨dropTrail ((dropTrail (s.data.dropWhile pIsSpace)).dropWhile pIsSpace)⟩ : String) = _
  have h1 : (dropTrail (s.data.dropWhile pIsSpace)).dropWhile pIsSpace =
      dropTrail (s.data.dropWhile pIsSpace) := by
    cases hm : s.data.dropWhile pIsSpace with
    | nil => rfl
    | cons a t =>
      have hpa : pIsSpace a = false := dropWhile_head_false s.data a t hm
      rcases dropTrail_shape a t with h | h
      · rw [h]; rfl
      · rw [h, List.dropWhile_cons, if_neg (by simp [hpa])]
  rw [h1, dropTrail_idem]

/-- A string in the image of `pstrip` is a fixed point of `pstrip`. -/
theorem pstrip_fix {k : String} (h : ∃ x, k = pstrip x) : pstrip k = k := by
  obtain ⟨x, rfl⟩ := h
  exact pstrip_idem x

/-- Keys after a `dinsert` are the old keys or the inserted key. -/
theorem dinsert_keys {α : Type} (l : List (String × α)) (k₀ : String) (v : α) :
    ∀ k ∈ (dinsert l k₀ v).map Prod.fst, k ∈ l.map Prod.fst ∨ k = k₀ := by
  intro k hk
  unfold dinsert at hk
  split at hk
  · simp only [List.map_map, List.mem_map, Function.comp] at hk
    obtain ⟨p, hp, hpk⟩ := hk
    by_cases hc : p.1 = k₀
    · rw [if_pos hc] at hpk
      exact Or.inr hpk.symm
    · rw [if_neg hc] at hpk
      exact Or.inl (List.mem_map.mpr ⟨p, hp, hpk⟩)
  · rw [List.map_append] at hk
    rcases List.mem_append.mp hk with h | h
    · exact Or.inl h
    · simp at h
      exact Or.inr h

/-- The `enron` per-row identifier is always an image of `pstrip`. -/
theorem enronFname_image (cols : List String) (row : List Cell) :
    ∃ x, enronFname cols row = pstrip x := by
  unfold enronFname
  cases hfc : firstCol? cols ["filename", "file", "name"] with
  | none => simp only [hfc, Option.map_none']; exact ⟨_, rfl⟩
  | some c =>
    simp only [hfc, Option.map_some']
    split
    · exact ⟨_, rfl⟩
    · exact ⟨cellStr ((colCell cols row c).getD (Cell.str "")), rfl⟩

/-- Every key produced by the `enron` row loop, starting from a key set that
is `pstrip`-fixed, is `pstrip`-fixed. -/
theorem enronGT_keys (cols : List String) (dir : List String) :
    ∀ (rows : List (List Cell)) (gt : List (String × Int)),
      (∀ k ∈ gt.map Prod.fst, pstrip k = k) →
      ∀ k ∈ (enronGT cols dir rows gt).map Prod.fst, pstrip k = k := by
  intro rows
  induction rows with
  | nil => intro gt hgt; exact hgt
  | cons row rest ih =>
    intro gt hgt
    show ∀ k ∈ (enronGT cols dir rest _).map Prod.fst, pstrip k = k
    apply ih
    split
    · intro k hk
      rcases dinsert_keys gt (enronFname cols row) (enronLabel cols row) k hk with h | h
      · exact hgt k h
      · rw [h]; exact pstrip_fix (enronFname_image cols row)
    · exact hgt

end Helpers

/-- Equation lemma: the `enron` branch of the loader. -/
theorem load_enron_eq (df : DataFrame) (dir : Option (List String)) :
    load_ground_truth "enron" (.ok df) dir =
      .ok (.flat (enronGT (normCols df) (dir.getD []) df.rows [])) := rfl

/-- Equation lemma: the `real-estate` branch of the loader. -/
theorem load_realEstate_eq (df : DataFrame) (dir : Option (List String)) :
    load_ground_truth "real-estate" (.ok df) dir =
      match realEstateGT (normCols df) (dir.getD [])
        (if (normCols df).contains "label" then some "label" else none)
        df.rows [] with
      | .ok gt => .ok (.flat gt)
      | .error e => .error e := rfl

/-- Equation lemma: the `medical-schema-matching` branch of the loader. -/
theorem load_medical_eq (df : DataFrame) (dir : Option (List String)) :
    load_ground_truth "medical-schema-matching" (.ok df) dir =
      .ok (.nested (medicalGT (normCols df) df.rows)) := rfl

/-- A `real-estate` row that does not raise either keeps the index or inserts
a `pstrip`-fixed key. -/
theorem realEstateStep_keys (cols : List String) (dir : List String)
    (lc : Option String) (row : List Cell) (gt g : List (String × Int))
    (h : realEstateStep cols dir lc row gt = .ok g) :
    ∀ k ∈ g.map Prod.fst, k ∈ gt.map Prod.fst ∨ pstrip k = k := by
  intro k hk
  unfold realEstateStep at h
  split at h
  · cases h; exact Or.inl hk
  · rename_i c _
    split at h
    · cases h; exact Or.inl hk
    · have hfix : pstrip (pstrip (cellStr ((colCell cols row c).getD Cell.nan)))
          = pstrip (cellStr ((colCell cols row c).getD Cell.nan)) :=
        pstrip_idem _
      split at h
      · split at h
        · cases h
          split at hk
          · rcases dinsert_keys gt _ _ k hk with hm | hm
            · exact Or.inl hm
            · exact Or.inr (hm ▸ hfix)
          · exact Or.inl hk
        · cases h
      · cases h
        split at hk
        · rcases dinsert_keys gt _ _ k hk with hm | hm
          · exact Or.inl hm
          · exact Or.inr (hm ▸ hfix)
        · exact Or.inl hk

/-- Keys produced by the `real-estate` row loop (when it does not raise) are
`pstrip`-fixed, given a `pstrip`-fixed starting key set. -/
theorem realEstateGT_keys (cols : List String) (dir : List String)
    (lc : Option String) :
    ∀ (rows : List (List Cell)) (gt : List (String × Int)),
      (∀ k ∈ gt.map Prod.fst, pstrip k = k) →
      ∀ g, realEstateGT cols dir lc rows gt = .ok g →
        ∀ k ∈ g.map Prod.fst, pstrip k = k := by
  intro rows
  induction rows with
  | nil => intro gt hgt g h; cases h; exact hgt
  | cons row rest ih =>
    intro gt hgt g h
    unfold realEstateGT at h
    split at h
    · rename_i gt' hstep
      refine ih gt' ?_ g h
      intro k hk
      rcases realEstateStep_keys cols dir lc row gt gt' hstep k hk with hm | hm
      · exact hgt k hm
      · exact hm
    · cases h

/-- Keys recorded by one `medical-schema-matching` row are `pstrip`-fixed. -/
theorem medicalRow_keys (cols : List String) (author : String)
    (row : List Cell) (m : List (String × Bool))
    (hm : ∀ k ∈ m.map Prod.fst, pstrip k = k) :
    ∀ k ∈ (medicalRow cols author row m).map Prod.fst, pstrip k = k := by
  intro k hk
  unfold medicalRow at hk
  split at hk
  · exact hm k hk
  · rcases dinsert_keys m _ _ k hk with h | h
    · exact hm k h
    · exact h ▸ pstrip_fix ⟨_, rfl⟩

/-- Attribute keys of one author's `medical-schema-matching` map are
`pstrip`-fixed. -/
theorem medicalAuthor_keys (cols : List String) (rows : List (List Cell))
    (author : String) :
    ∀ k ∈ (medicalAuthor cols rows author).map Prod.fst, pstrip k = k := by
  unfold medicalAuthor
  generalize hinit : ([] : List (String × Bool)) = init
  have hbase : ∀ k ∈ init.map Prod.fst, pstrip k = k := by
    rw [← hinit]; intro k hk; simp at hk
  clear hinit
  induction rows generalizing init with
  | nil => exact hbase
  | cons row rest ih =>
    rw [List.foldl_cons]
    exact ih _ (medicalRow_keys cols author row init hbase)

/-- Folding author columns into the nested index only adds keys of the form
`pstrip (plower a)` for an author column `a` of the reference list `S`. -/
theorem medicalGT_foldl_keys (cols : List String) (rows : List (List Cell))
    (S : List String) :
    ∀ (iter : List String), (∀ a ∈ iter, a ∈ S) →
      ∀ (init : List (String × List (String × Bool))),
        (∀ k ∈ init.map Prod.fst,
          pstrip k = k ∧ k ∈ S.map (fun a => pstrip (plower a))) →
        ∀ k ∈ (iter.foldl (fun gm a =>
            dinsert gm (pstrip (plower a)) (medicalAuthor cols rows a))
            init).map Prod.fst,
          pstrip k = k ∧ k ∈ S.map (fun a => pstrip (plower a)) := by
  intro iter
  induction iter with
  | nil => intro _ init hbase; exact hbase
  | cons a rest ih =>
    intro hsub init hbase
    rw [List.foldl_cons]
    refine ih (fun x hx => hsub x (List.mem_cons_of_mem a hx)) _ ?_
    intro k hk
    rcases dinsert_keys init _ _ k hk with h | h
    · exact hbase k h
    · subst h
      refine ⟨pstrip_fix ⟨_, rfl⟩, ?_⟩
      exact List.mem_map.mpr ⟨a, hsub a (List.mem_cons_self a rest), rfl⟩

/-- Source keys of the `medical-schema-matching` index lie in the image of
lower-casing-then-stripping the author columns, and are `pstrip`-fixed. -/
theorem medicalGT_keys (cols : List String) (rows : List (List Cell)) :
    ∀ k ∈ (medicalGT cols rows).map Prod.fst,
      pstrip k = k ∧ k ∈ (cols.drop 1).map (fun a => pstrip (plower a)) := by
  have h := medicalGT_foldl_keys cols rows (cols.drop 1) (cols.drop 1)
    (fun a ha => ha) [] (by intro k hk; simp at hk)
  exact h

/-- Predicted identifiers extracted for flat scoring are `pstrip`-fixed. -/
theorem predictedPositives_stripped (results : List ResultRecord)
    (key_attr : String) :
    ∀ s ∈ predictedPositives results key_attr, pstrip s = s := by
  intro s hs
  unfold predictedPositives at hs
  rcases List.mem_filterMap.mp hs with ⟨r, _, hr⟩
  rcases Option.map_eq_some'.mp hr with ⟨v, _, hv⟩
  exact hv ▸ pstrip_fix ⟨v, rfl⟩

/-- With an empty directory listing the `enron` loop inserts nothing. -/
theorem enronGT_dir_nil (cols : List String) :
    ∀ (rows : List (List Cell)) (gt : List (String × Int)),
      enronGT cols [] rows gt = gt := by
  intro rows
  induction rows with
  | nil => intro gt; rfl
  | cons row rest ih =>
    intro gt
    show enronGT cols [] rest _ = gt
    have : (([] : List String).contains (enronFname cols row)) = false := rfl
    rw [this]
    exact ih gt

/-- With an empty directory listing a non-raising `real-estate` row keeps the
index unchanged. -/
theorem realEstateStep_dir_nil (cols : List String) (lc : Option String)
    (row : List Cell) (gt g : List (String × Int))
    (h : realEstateStep cols [] lc row gt = .ok g) : g = gt := by
  unfold realEstateStep at h
  split at h
  · cases h; rfl
  · split at h
    · cases h; rfl
    · split at h
      · split at h
        · cases h
          rw [show (([] : List String).contains _) = false from rfl]
          rfl
        · cases h
      · cases h
        rw [show (([] : List String).contains _) = false from rfl]
        rfl

/-- With an empty directory listing the non-raising `real-estate` loop returns
its accumulator unchanged. -/
theorem realEstateGT_dir_nil (cols : List String) (lc : Option String) :
    ∀ (rows : List (List Cell)) (gt g : List (String × Int)),
      realEstateGT cols [] lc rows gt = .ok g → g = gt := by
  intro rows
  induction rows with
  | nil => intro gt g h; cases h; rfl
  | cons row rest ih =>
    intro gt g h
    unfold realEstateGT at h
    split at h
    · rename_i gt' hstep
      rw [ih gt' g h]
      exact realEstateStep_dir_nil cols lc row gt gt' hstep
    · cases h

/-- C1: for every workload and result collection, an empty ground-truth index
makes `compute_f1` return `0.0` immediately; a missing ground-truth file
yields the empty index for every workload, and for the flat-variant workloads
a missing dataset directory also yields the empty index (so the score is
`0.0` for any result set, non-empty ones included). -/
theorem c1_empty_ground_truth_zero :
    (∀ (results : List ResultRecord) (gt : GTData) (w : String),
        gt.isEmpty = true → compute_f1 results gt w = 0) ∧
    (∀ (w : String) (dir : Option (List String)),
        load_ground_truth w .missing dir = .ok (emptyIndexFor w) ∧
        (emptyIndexFor w).isEmpty = true) ∧
    (∀ df : DataFrame,
        load_ground_truth "enron" (.ok df) none = .ok (.flat [])) ∧
    (∀ (df : DataFrame) (g : GTData),
        load_ground_truth "real-estate" (.ok df) none = .ok g →
        g = .flat []) := by
  refine ⟨?_, ?_, ?_, ?_⟩
  · intro results gt w h
    unfold compute_f1
    rw [h]
    rfl
  · intro w dir
    refine ⟨rfl, ?_⟩
    unfold emptyIndexFor
    split <;> rfl
  · intro df
    rw [load_enron_eq]
    rw [show (none : Option (List String)).getD [] = [] from rfl]
    rw [enronGT_dir_nil]
  · intro df g h
    rw [load_realEstate_eq] at h
    rw [show (none : Option (List String)).getD [] = [] from rfl] at h
    split at h
    · rename_i gt hgt
      cases h
      rw [realEstateGT_dir_nil _ _ _ _ _ hgt]
    · cases h

/-- Witness for C1 at a concrete non-empty result set and empty index. -/
theorem c1_witness :
    compute_f1 [⟨[("filename", "a.txt")]⟩] (.flat []) "enron" = 0 :=
  c1_empty_ground_truth_zero.1 [⟨[("filename", "a.txt")]⟩] (.flat []) "enron" rfl

/-- An entry after a `dinsert` is an old entry or the inserted pair. -/
theorem dinsert_mem {α : Type} (l : List (String × α)) (k₀ : String) (v : α) :
    ∀ p ∈ dinsert l k₀ v, p ∈ l ∨ p = (k₀, v) := by
  intro p hp
  unfold dinsert at hp
  split at hp
  · rcases List.mem_map.mp hp with ⟨q, hq, hqp⟩
    by_cases hc : q.1 = k₀
    · rw [if_pos hc] at hqp
      exact Or.inr hqp.symm
    · rw [if_neg hc] at hqp
      exact Or.inl (hqp ▸ hq)
  · rcases List.mem_append.mp hp with h | h
    · exact Or.inl h
    · simp at h
      exact Or.inr (by cases h; rfl)

/-- Every value of the nested index is the attribute map of some author. -/
theorem medicalGT_values (cols : List String) (rows : List (List Cell)) :
    ∀ kv ∈ medicalGT cols rows, ∃ a, kv.2 = medicalAuthor cols rows a := by
  unfold medicalGT
  have main : ∀ (iter : List String)
      (init : List (String × List (String × Bool))),
      (∀ kv ∈ init, ∃ a, kv.2 = medicalAuthor cols rows a) →
      ∀ kv ∈ iter.foldl (fun gm a =>
          dinsert gm (pstrip (plower a)) (medicalAuthor cols rows a)) init,
        ∃ a, kv.2 = medicalAuthor cols rows a := by
    intro iter
    induction iter with
    | nil => intro init hbase; exact hbase
    | cons a rest ih =>
      intro init hbase
      rw [List.foldl_cons]
      refine ih _ ?_
      intro kv hkv
      rcases dinsert_mem init _ _ kv hkv with h | h
      · exact hbase kv h
      · exact ⟨a, by rw [h]⟩
  exact main (cols.drop 1) [] (by intro kv hkv; simp at hkv)

/-- Counterexample to C2: the `enron` branch stores the identifier `"A.txt"`
verbatim (trimmed only), which is not its lower-cased form — so not every
stored key is normalized to lower case. -/
theorem c2_counterexample :
    load_ground_truth "enron" (.ok ⟨["filename"], [[.str "A.txt"]]⟩)
        (some ["A.txt"]) = .ok (.flat [("A.txt", 1)]) ∧
      plower "A.txt" ≠ "A.txt" := by
  constructor
  · decide
  · decide

/-- C2 as amended: all keys stored by `load_ground_truth` are
whitespace-trimmed (fixed points of `pstrip`), but only the nested-variant
source keys are additionally lower-cased (they are exactly images of
`pstrip ∘ plower` of author columns); flat-variant identifiers keep their
case, and the flat scoring lookup applies the same trim-only normalization to
the record attribute it reads. -/
theorem c2_trimmed_keys :
    (∀ (df : DataFrame) (dir : Option (List String))
        (entries : List (String × Int)),
        load_ground_truth "enron" (.ok df) dir = .ok (.flat entries) →
        ∀ k ∈ entries.map Prod.fst, pstrip k = k) ∧
    (∀ (df : DataFrame) (dir : Option (List String))
        (entries : List (String × Int)),
        load_ground_truth "real-estate" (.ok df) dir = .ok (.flat entries) →
        ∀ k ∈ entries.map Prod.fst, pstrip k = k) ∧
    (∀ (df : DataFrame) (dir : Option (List String))
        (g : List (String × List (String × Bool))),
        load_ground_truth "medical-schema-matching" (.ok df) dir =
          .ok (.nested g) →
        ∀ kv ∈ g,
          (pstrip kv.1 = kv.1 ∧
            kv.1 ∈ ((normCols df).drop 1).map (fun a => pstrip (plower a))) ∧
          ∀ ak ∈ kv.2.map Prod.fst, pstrip ak = ak) ∧
    (∀ (results : List ResultRecord) (key_attr : String),
        ∀ s ∈ predictedPositives results key_attr, pstrip s = s) := by
  refine ⟨?_, ?_, ?_, predictedPositives_stripped⟩
  · intro df dir entries h
    rw [load_enron_eq] at h
    cases h
    exact enronGT_keys _ _ df.rows [] (by intro k hk; simp at hk)
  · intro df dir entries h
    rw [load_realEstate_eq] at h
    split at h
    · rename_i gt0 hgt
      cases h
      exact realEstateGT_keys _ _ _ df.rows [] (by intro k hk; simp at hk)
        _ hgt
    · cases h
  · intro df dir g h
    rw [load_medical_eq] at h
    cases h
    intro kv hkv
    have hkey := medicalGT_keys (normCols df) df.rows kv.1
      (List.mem_map.mpr ⟨kv, hkv, rfl⟩)
    refine ⟨hkey, ?_⟩
    intro ak hak
    rcases medicalGT_values (normCols df) df.rows kv hkv with ⟨a, hval⟩
    rw [hval] at hak
    exact medicalAuthor_keys _ _ _ ak hak

/-- Witness for C2 as amended, at a concrete loaded index. -/
theorem c2_witness :
    ∀ k ∈ ([("A.txt", (1 : Int))]).map Prod.fst, pstrip k = k :=
  c2_trimmed_keys.1 ⟨["filename"], [[.str "A.txt"]]⟩ (some ["A.txt"])
    [("A.txt", 1)] (by decide)

/-- Counterexample to C3: with a `label` column whose cell cannot be parsed
as an integer, the `real-estate` branch raises `ValueError` to its caller
instead of degrading (contrast `enron`, which guards the same conversion). -/
theorem c3_counterexample :
    (load_ground_truth "real-estate"
        (.ok ⟨["listing", "label"], [[.str "x", .str "abc"]]⟩)
        (some ["x"])).isOk = false := by decide

/-- A `real-estate` row never raises when there is no label column. -/
theorem realEstateStep_none_ok (cols : List String) (dir : List String)
    (row : List Cell) (gt : List (String × Int)) :
    ∃ g, realEstateStep cols dir none row gt = .ok g := by
  cases hfc : firstCol? cols ["listing", "filename", "id", "name"] with
  | none => exact ⟨gt, by simp only [realEstateStep, hfc]⟩
  | some c =>
    cases ht : cellTruthy ((colCell cols row c).getD Cell.nan) with
    | false => exact ⟨gt, by simp only [realEstateStep, hfc, ht]⟩
    | true =>
      refine ⟨if dir.contains (pstrip (cellStr ((colCell cols row c).getD
          Cell.nan))) then dinsert gt (pstrip (cellStr ((colCell cols
          row c).getD Cell.nan))) 1 else gt, ?_⟩
      simp only [realEstateStep, hfc, ht]

/-- A `real-estate` row never raises when its label cell parses. -/
theorem realEstateStep_some_ok (cols : List String) (dir : List String)
    (lc : String) (row : List Cell) (gt : List (String × Int))
    (hp : (cellToInt ((colCell cols row lc).getD Cell.nan)).isSome = true) :
    ∃ g, realEstateStep cols dir (some lc) row gt = .ok g := by
  cases hfc : firstCol? cols ["listing", "filename", "id", "name"] with
  | none => exact ⟨gt, by simp only [realEstateStep, hfc]⟩
  | some c =>
    cases ht : cellTruthy ((colCell cols row c).getD Cell.nan) with
    | false => exact ⟨gt, by simp only [realEstateStep, hfc, ht]⟩
    | true =>
      rcases Option.isSome_iff_exists.mp hp with ⟨n, hn⟩
      refine ⟨if dir.contains (pstrip (cellStr ((colCell cols row c).getD
          Cell.nan))) then dinsert gt (pstrip (cellStr ((colCell cols
          row c).getD Cell.nan))) n else gt, ?_⟩
      simp only [realEstateStep, hfc, ht, hn]

/-- The `real-estate` loop never raises when every row's step succeeds. -/
theorem realEstateGT_ok (cols : List String) (dir : List String)
    (lc : Option String) :
    ∀ (rows : List (List Cell)) (gt : List (String × Int)),
      (∀ row ∈ rows, ∀ g0, ∃ g, realEstateStep cols dir lc row g0 = .ok g) →
      ∃ g, realEstateGT cols dir lc rows gt = .ok g := by
  intro rows
  induction rows with
  | nil => intro gt _; exact ⟨gt, rfl⟩
  | cons row rest ih =>
    intro gt hall
    rcases hall row (List.mem_cons_self row rest) gt with ⟨g1, hg1⟩
    rcases ih g1 (fun r hr => hall r (List.mem_cons_of_mem row hr)) with
      ⟨g2, hg2⟩
    refine ⟨g2, ?_⟩
    unfold realEstateGT
    rw [hg1]
    exact hg2

/-- C3 as amended: `load_ground_truth` never raises EXCEPT in the
`real-estate` branch when a `label` column is present and some non-skipped
row's label fails integer conversion; in particular every other workload is
exception-free on all inputs, and `real-estate` is exception-free whenever
there is no label column or every row's label cell parses as an integer. -/
theorem c3_loader_leniency :
    (∀ (w : String) (csv : CsvInput) (dir : Option (List String)),
        w ≠ "real-estate" → (load_ground_truth w csv dir).isOk = true) ∧
    (∀ (df : DataFrame) (dir : Option (List String)),
        (normCols df).contains "label" = false →
        (load_ground_truth "real-estate" (.ok df) dir).isOk = true) ∧
    (∀ (df : DataFrame) (dir : Option (List String)),
        (∀ row ∈ df.rows,
          (cellToInt ((colCell (normCols df) row "label").getD
            Cell.nan)).isSome = true) →
        (load_ground_truth "real-estate" (.ok df) dir).isOk = true) := by
  refine ⟨?_, ?_, ?_⟩
  · intro w csv dir hw
    cases csv with
    | missing =>
      show (Except.ok (emptyIndexFor w)).isOk = true
      rfl
    | parseError =>
      show (Except.ok (emptyIndexFor w)).isOk = true
      rfl
    | ok df =>
      show (load_ground_truth w (.ok df) dir).isOk = true
      by_cases h1 : w = "enron"
      · subst h1; rfl
      · by_cases h2 : w = "medical-schema-matching"
        · subst h2; rfl
        · simp only [load_ground_truth, if_neg h1, if_neg hw, if_neg h2]
          rfl
  · intro df dir hnolabel
    rw [load_realEstate_eq, hnolabel]
    simp only [Bool.false_eq_true, if_false]
    rcases realEstateGT_ok (normCols df) (dir.getD []) none df.rows []
        (fun row _ g0 => realEstateStep_none_ok _ _ row g0) with ⟨g, hg⟩
    rw [hg]
    rfl
  · intro df dir hall
    rw [load_realEstate_eq]
    cases hlab : (normCols df).contains "label" with
    | false =>
      simp only [Bool.false_eq_true, if_false]
      rcases realEstateGT_ok (normCols df) (dir.getD []) none df.rows []
          (fun row _ g0 => realEstateStep_none_ok _ _ row g0) with ⟨g, hg⟩
      rw [hg]
      rfl
    | true =>
      simp only [if_true]
      rcases realEstateGT_ok (normCols df) (dir.getD []) (some "label") df.rows
          [] (fun row hr g0 =>
            realEstateStep_some_ok _ _ "label" row g0 (hall row hr)) with
        ⟨g, hg⟩
      rw [hg]
      rfl

/-- Witness for C3 as amended: a concrete non-`real-estate` load and a
concrete `real-estate` load with parsable labels both succeed. -/
theorem c3_witness :
    (load_ground_truth "enron"
      (.ok ⟨["filename", "label"], [[.str "a.txt", .str "xyz"]]⟩)
      (some ["a.txt"])).isOk = true ∧
    (load_ground_truth "real-estate"
      (.ok ⟨["listing", "label"], [[.str "x", .str "3"]]⟩)
      (some ["x"])).isOk = true := by
  constructor
  · exact c3_loader_leniency.1 "enron"
      (.ok ⟨["filename", "label"], [[.str "a.txt", .str "xyz"]]⟩)
      (some ["a.txt"]) (by decide)
  · exact c3_loader_leniency.2.2 ⟨["listing", "label"], [[.str "x", .str "3"]]⟩
      (some ["x"]) (by decide)

/-- When no candidate identifier column exists, every `real-estate` row is
skipped and the loop returns its accumulator. -/
theorem realEstateGT_no_candidate (cols : List String) (dir : List String)
    (lc : Option String)
    (hfc : firstCol? cols ["listing", "filename", "id", "name"] = none) :
    ∀ (rows : List (List Cell)) (gt : List (String × Int)),
      realEstateGT cols dir lc rows gt = .ok gt := by
  intro rows
  induction rows with
  | nil => intro gt; rfl
  | cons row rest ih =>
    intro gt
    have hstep : realEstateStep cols dir lc row gt = .ok gt := by
      simp only [realEstateStep, hfc]
    unfold realEstateGT
    rw [hstep]
    exact ih gt

/-- Counterexample to C4: on the same one-column table (no candidate
identifier column anywhere), `enron` falls back to the first column and keeps
the row, while `real-estate` skips it — so the fallback does NOT apply to
both flat workloads. -/
theorem c4_counterexample :
    load_ground_truth "real-estate" (.ok ⟨["foo"], [[.str "x"]]⟩)
        (some ["x"]) = .ok (.flat []) ∧
      load_ground_truth "enron" (.ok ⟨["foo"], [[.str "x"]]⟩)
        (some ["x"]) = .ok (.flat [("x", 1)]) := by
  constructor
  · decide
  · decide

/-- C4 as amended: only the `enron` branch falls back to the row's first
column when no candidate identifier column matches; the `real-estate` branch
skips every such row (yielding an empty index when no candidate column
exists at all). -/
theorem c4_first_column_fallback :
    (∀ (df : DataFrame) (dir : Option (List String)),
        (∀ cand ∈ ["listing", "filename", "id", "name"],
          (normCols df).contains cand = false) →
        load_ground_truth "real-estate" (.ok df) dir = .ok (.flat [])) ∧
    (∀ (c : String) (cell : Cell) (dir : List String),
        (∀ cand ∈ ["filename", "file", "name"], plower (pstrip c) ≠ cand) →
        (∀ cand ∈ ["label", "y", "target"], plower (pstrip c) ≠ cand) →
        load_ground_truth "enron" (.ok ⟨[c], [[cell]]⟩) (some dir) =
          .ok (.flat (if dir.contains (pstrip (cellStr cell))
            then [(pstrip (cellStr cell), 1)] else []))) := by
  constructor
  · intro df dir hno
    have hfc : firstCol? (normCols df) ["listing", "filename", "id", "name"]
        = none := by
      rw [firstCol?, List.find?_eq_none]
      intro x hx
      rw [hno x hx]
      simp
    rw [load_realEstate_eq,
      realEstateGT_no_candidate (normCols df) (dir.getD []) _ hfc df.rows []]
  · intro c cell dir h1 h2
    have hf1 : firstCol? [plower (pstrip c)] ["filename", "file", "name"]
        = none := by
      rw [firstCol?, List.find?_eq_none]
      intro x hx
      simp only [List.contains_cons, List.contains_nil, Bool.or_false,
        beq_iff_eq]
      intro heq
      exact h1 x hx heq.symm
    have hf2 : firstCol? [plower (pstrip c)] ["label", "y", "target"]
        = none := by
      rw [firstCol?, List.find?_eq_none]
      intro x hx
      simp only [List.contains_cons, List.contains_nil, Bool.or_false,
        beq_iff_eq]
      intro heq
      exact h2 x hx heq.symm
    have hfname : enronFname [plower (pstrip c)] [cell]
        = pstrip (cellStr cell) := by
      unfold enronFname
      rw [hf1]
      rfl
    have hlabel : enronLabel [plower (pstrip c)] [cell] = 1 := by
      unfold enronLabel
      rw [hf2]
    rw [load_enron_eq]
    simp only [Option.getD_some]
    have hcols : normCols ⟨[c], [[cell]]⟩ = [plower (pstrip c)] := rfl
    rw [hcols]
    have hstep : enronGT [plower (pstrip c)] dir [[cell]] [] =
        (if dir.contains (enronFname [plower (pstrip c)] [cell])
          then dinsert [] (enronFname [plower (pstrip c)] [cell])
            (enronLabel [plower (pstrip c)] [cell])
          else []) := rfl
    rw [hstep, hfname, hlabel]
    by_cases hd : dir.contains (pstrip (cellStr cell)) = true
    · rw [if_pos hd, if_pos hd]
      rfl
    · rw [if_neg hd, if_neg hd]

/-- Witness for C4 as amended, at the concrete frame of the counterexample. -/
theorem c4_witness :
    load_ground_truth "real-estate" (.ok ⟨["foo"], [[.str "x"]]⟩)
        (some ["x"]) = .ok (.flat []) ∧
      load_ground_truth "enron" (.ok ⟨["foo"], [[.str "x"]]⟩) (some ["x"]) =
        .ok (.flat (if (["x"].contains (pstrip (cellStr (.str "x"))))
          then [(pstrip (cellStr (.str "x")), 1)] else [])) :=
  ⟨c4_first_column_fallback.1 ⟨["foo"], [[.str "x"]]⟩ (some ["x"]) (by decide),
   c4_first_column_fallback.2 "foo" (.str "x") ["x"] (by decide) (by decide)⟩

/-- Counterexample to C5: the cell `" Missing "` (surrounding whitespace) IS
recorded as should-exist `true`, because line 83 lower-cases but does not
strip the cell before comparing with `"missing"`/`"nan"` — yet trimmed and
lower-cased it equals `"missing"`, so the claim would demand `false`. -/
theorem c5_counterexample :
    load_ground_truth "medical-schema-matching"
        (.ok ⟨["target_attribute", "sourcea"],
          [[.str "name", .str " Missing "]]⟩) none =
      .ok (.nested [("sourcea", [("name", true)])]) ∧
      plower (pstrip " Missing ") = "missing" := by
  constructor
  · decide
  · decide

/-- C5 as amended: the should-exist flag is `false` exactly when the cell's
string value, lower-cased but NOT trimmed, equals `"missing"` or `"nan"`;
and in a one-row frame the loader records precisely
`shouldExistStr (cellStr cell)` under the trimmed attribute name and the
lower-cased/trimmed source key. -/
theorem c5_lowercase_only_comparison :
    (∀ s : String, shouldExistStr s = false ↔
      (plower s = "missing" ∨ plower s = "nan")) ∧
    (∀ (c0 a attr : String) (cell : Cell) (dir : Option (List String)),
        plower (pstrip c0) ≠ plower (pstrip a) →
        load_ground_truth "medical-schema-matching"
            (.ok ⟨[c0, a], [[.str attr, cell]]⟩) dir =
          .ok (.nested [(pstrip (plower (plower (pstrip a))),
            [(pstrip attr, shouldExistStr (cellStr cell))])])) := by
  constructor
  · intro s
    simp only [shouldExistStr, Bool.and_eq_false_imp, ne_eq,
      decide_not, Bool.not_eq_false', decide_eq_true_eq]
    constructor
    · intro h
      by_cases hm : plower s = "missing"
      · exact Or.inl hm
      · exact Or.inr (h (by simpa using hm))
    · intro h hm
      rcases h with h | h
      · exact absurd h (by simpa using hm)
      · exact h
  · intro c0 a attr cell dir hne
    have hcell0 : colCell [plower (pstrip c0), plower (pstrip a)]
        [.str attr, cell] (plower (pstrip c0)) = some (.str attr) := by
      simp [colCell, List.findIdx?_cons]
    have hcell1 : colCell [plower (pstrip c0), plower (pstrip a)]
        [.str attr, cell] (plower (pstrip a)) = some cell := by
      simp [colCell, List.findIdx?_cons, hne]
    have hrow : medicalRow [plower (pstrip c0), plower (pstrip a)]
        (plower (pstrip a)) [.str attr, cell] [] =
        [(pstrip attr, shouldExistStr (cellStr cell))] := by
      show dinsert []
        (pstrip (cellStr ((colCell [plower (pstrip c0), plower (pstrip a)]
          [.str attr, cell] (plower (pstrip c0))).getD Cell.nan)))
        (shouldExistStr (cellStr
          ((colCell [plower (pstrip c0), plower (pstrip a)]
            [.str attr, cell] (plower (pstrip a))).getD Cell.nan))) = _
      rw [hcell0, hcell1]
      rfl
    have hauthor : medicalAuthor [plower (pstrip c0), plower (pstrip a)]
        [[.str attr, cell]] (plower (pstrip a)) =
        [(pstrip attr, shouldExistStr (cellStr cell))] := by
      unfold medicalAuthor
      rw [List.foldl_cons, List.foldl_nil]
      exact hrow
    have hgt : medicalGT [plower (pstrip c0), plower (pstrip a)]
        [[.str attr, cell]] =
        [(pstrip (plower (plower (pstrip a))),
          [(pstrip attr, shouldExistStr (cellStr cell))])] := by
      show [plower (pstrip a)].foldl (fun gm x =>
          dinsert gm (pstrip (plower x))
            (medicalAuthor [plower (pstrip c0), plower (pstrip a)]
              [[.str attr, cell]] x)) [] = _
      rw [List.foldl_cons, List.foldl_nil, hauthor]
      rfl
    rw [load_medical_eq]
    have hcols : normCols ⟨[c0, a], [[.str attr, cell]]⟩ =
        [plower (pstrip c0), plower (pstrip a)] := rfl
    rw [hcols, hgt]

/-- Witness for C5 as amended, at the counterexample's concrete frame. -/
theorem c5_witness :
    load_ground_truth "medical-schema-matching"
        (.ok ⟨["target_attribute", "SourceA"],
          [[.str "name", .str " Missing "]]⟩) none =
      .ok (.nested [(pstrip (plower (plower (pstrip "SourceA"))),
        [(pstrip "name", shouldExistStr (cellStr (.str " Missing ")))])]) :=
  c5_lowercase_only_comparison.2 "target_attribute" "SourceA" "name"
    (.str " Missing ") none (by decide)

/-- One vector position contributes `1` to a pair count exactly when it
matches the pair being counted. -/
theorem pairCount_cons (a b x y : Int) (yt yp : List Int) :
    pairCount (a :: yt) (b :: yp) x y =
      (if a = x ∧ b = y then 1 else 0) + pairCount yt yp x y := by
  unfold pairCount
  rw [List.zip_cons_cons, List.filter_cons]
  by_cases ha : a = x
  · by_cases hb : b = y
    · simp [ha, hb, Nat.add_comm]
    · simp [ha, hb]
  · simp [ha]

/-- Pair counts over two all-ones vectors. -/
theorem pairCount_ones (n : Nat) :
    pairCount (List.replicate n 1) (List.replicate n 1) 1 1 = n ∧
    pairCount (List.replicate n 1) (List.replicate n 1) 0 1 = 0 ∧
    pairCount (List.replicate n 1) (List.replicate n 1) 1 0 = 0 := by
  induction n with
  | zero => refine ⟨rfl, rfl, rfl⟩
  | succ m ih =>
    rw [List.replicate_succ]
    rw [pairCount_cons, pairCount_cons, pairCount_cons]
    refine ⟨?_, ?_, ?_⟩
    · rw [ih.1]; simp [Nat.add_comm]
    · rw [ih.2.1]; simp
    · rw [ih.2.2]; simp

/-- Counterexample to C6: ground truth `{a: 0}` and a result set whose
predicted identifiers exactly equal the key set `{a}` give F1 = 0, not 1 —
the stored labels do matter. -/
theorem c6_counterexample :
    predictedPositives [⟨[("filename", "a")]⟩] (keyAttrOf "enron") = ["a"] ∧
    ([("a", (0 : Int))]).map Prod.fst = ["a"] ∧
    compute_f1 [⟨[("filename", "a")]⟩] (.flat [("a", 0)]) "enron" = 0 := by
  refine ⟨by decide, by decide, ?_⟩
  have hv : flatVectors [⟨[("filename", "a")]⟩] [("a", 0)]
      (keyAttrOf "enron") = ([0], [1]) := by decide
  simp [compute_f1, GTData.isEmpty, hv, f1Binary, pairCount]

/-- C6 as amended: for a flat-variant workload with a non-empty index, if the
predicted identifier set equals the ground-truth key set AND every stored
label is `1`, then precision, recall and F1 are all `1.0` (and `compute_f1`
returns `1.0`). -/
theorem c6_perfect_prediction (w : String) (entries : List (String × Int))
    (results : List ResultRecord)
    (hw : w = "enron" ∨ w = "real-estate")
    (hne : entries ≠ [])
    (hlab : ∀ e ∈ entries, e.2 = 1)
    (hpred : ∀ k, (entries.map Prod.fst).contains k = true ↔
      (predictedPositives results (keyAttrOf w)).contains k = true) :
    precisionBinary (flatVectors results entries (keyAttrOf w)).1
        (flatVectors results entries (keyAttrOf w)).2 = 1 ∧
    recallBinary (flatVectors results entries (keyAttrOf w)).1
        (flatVectors results entries (keyAttrOf w)).2 = 1 ∧
    f1Binary (flatVectors results entries (keyAttrOf w)).1
        (flatVectors results entries (keyAttrOf w)).2 = 1 ∧
    compute_f1 results (.flat entries) w = 1 := by
  have hn : entries.length ≠ 0 := by
    intro h
    exact hne (List.length_eq_zero.mp h)
  have hkey : ∀ e ∈ entries,
      (predictedPositives results (keyAttrOf w)).contains e.1 = true := by
    intro e he
    refine (hpred e.1).mp ?_
    have hm : e.1 ∈ entries.map Prod.fst := List.mem_map_of_mem Prod.fst he
    exact List.elem_eq_true_of_mem hm
  have hv : flatVectors results entries (keyAttrOf w) =
      (List.replicate entries.length 1, List.replicate entries.length 1) := by
    unfold flatVectors
    rw [Prod.mk.injEq]
    constructor
    · rw [List.eq_replicate_iff]
      refine ⟨by simp, ?_⟩
      intro b hb
      rcases List.mem_map.mp hb with ⟨e, he, rfl⟩
      exact hlab e he
    · rw [List.eq_replicate_iff]
      refine ⟨by simp, ?_⟩
      intro b hb
      rcases List.mem_map.mp hb with ⟨e, he, rfl⟩
      rw [if_pos (hkey e he)]
  obtain ⟨h11, h01, h10⟩ := pairCount_ones entries.length
  have hprec : precisionBinary (List.replicate entries.length 1)
      (List.replicate entries.length 1) = 1 := by
    unfold precisionBinary
    rw [h11, h01, if_neg (by omega)]
    push_cast
    rw [add_zero]
    exact div_self (by exact_mod_cast hn)
  have hrec : recallBinary (List.replicate entries.length 1)
      (List.replicate entries.length 1) = 1 := by
    unfold recallBinary
    rw [h11, h10, if_neg (by omega)]
    push_cast
    rw [add_zero]
    exact div_self (by exact_mod_cast hn)
  have hf1 : f1Binary (List.replicate entries.length 1)
      (List.replicate entries.length 1) = 1 := by
    unfold f1Binary
    rw [h11, h01, h10, if_neg (by omega)]
    push_cast
    rw [add_zero, add_zero]
    refine div_self ?_
    exact mul_ne_zero two_ne_zero (by exact_mod_cast hn)
  have hvempty : (List.replicate entries.length (1 : Int)).isEmpty = false := by
    rw [List.isEmpty_eq_false]
    intro h
    exact hn (by simpa using congrArg List.length h)
  have hemp : GTData.isEmpty (.flat entries) = false :=
    List.isEmpty_eq_false.mpr hne
  refine ⟨hv ▸ hprec, hv ▸ hrec, hv ▸ hf1, ?_⟩
  rcases hw with rfl | rfl
  · unfold compute_f1
    rw [hemp]
    simp only [Bool.false_eq_true, if_false]
    simp [hv, hvempty, hf1]
  · unfold compute_f1
    rw [hemp]
    simp only [Bool.false_eq_true, if_false]
    simp [hv, hvempty, hf1]

/-- Witness for C6 as amended, with one all-positive entry predicted. -/
theorem c6_witness :
    compute_f1 [⟨[("filename", "a")]⟩] (.flat [("a", 1)]) "enron" = 1 :=
  (c6_perfect_prediction "enron" [("a", 1)] [⟨[("filename", "a")]⟩]
    (Or.inl rfl) (by decide) (by decide) (fun _ => Iff.rfl)).2.2.2

/-- The alias-probing loop returns the first alias bound to a value,
`0.0` when none is. -/
theorem probeAliases_eq_findSome (ps : PerPlanStats) :
    ∀ aliases : List String,
      probeAliases ps aliases =
        (aliases.findSome? (fun a => ps.num_attrs.lookup a)).getD 0 := by
  intro aliases
  induction aliases with
  | nil => rfl
  | cons a rest ih =>
    unfold probeAliases
    rw [List.findSome?_cons]
    cases h : ps.num_attrs.lookup a with
    | some v => rfl
    | none => exact ih

/-- C7: cost/time extraction probes the prioritized alias lists, stopping at
the first alias whose value is not `None`, keeps the `0.0` defaults whenever
execution statistics are absent, malformed, or empty, and never raises (it is
a total function of the run output, the swallowed-exception cases included). -/
theorem c7_cost_time_probing (res : RunOutput) :
    extract_cost_time res =
      match specFirstPlanStats res with
      | none => (0, 0)
      | some f =>
        ((costAliases.findSome? (fun a => f.num_attrs.lookup a)).getD 0,
         (timeAliases.findSome? (fun a => f.num_attrs.lookup a)).getD 0) := by
  rcases res with ⟨es, recs⟩
  cases es with
  | none => rfl
  | some es' =>
    rcases es' with ⟨ps⟩
    cases ps with
    | missing => rfl
    | malformed => rfl
    | stats l =>
      cases l with
      | nil => rfl
      | cons f t =>
        show (probeAliases f costAliases, probeAliases f timeAliases) = _
        rw [probeAliases_eq_findSome, probeAliases_eq_findSome]
        rfl

/-- Unfolding equation: a run whose plan-text extraction raises ends the pass
with a failure carrying the files written so far and no table. -/
theorem reportGo_cons_error (gt_data : GTData) (workload plan_dir : String)
    (wf : String → Bool) (r : RunOutput) (rest : List RunOutput) (idx : Nat)
    (files : List (String × String)) (rows : List SummaryRow) (e : String)
    (he : extract_plan_text r = .error e) :
    reportGo gt_data workload plan_dir wf (r :: rest) idx files rows =
      .failed files e := by
  unfold reportGo
  rw [he]

/-- Unfolding equation: a run whose plan-text extraction succeeds appends its
file write (unless the write fails) and its summary row, then continues. -/
theorem reportGo_cons_ok (gt_data : GTData) (workload plan_dir : String)
    (wf : String → Bool) (r : RunOutput) (rest : List RunOutput) (idx : Nat)
    (files : List (String × String)) (rows : List SummaryRow) (t : String)
    (he : extract_plan_text r = .ok t) :
    reportGo gt_data workload plan_dir wf (r :: rest) idx files rows =
      reportGo gt_data workload plan_dir wf rest (idx + 1)
        (if wf (planPath plan_dir idx) then files
          else files ++ [(planPath plan_dir idx, t)])
        (rows ++ [⟨workload, "Plan-" ++ toString idx,
          (extract_cost_time r).2, (extract_cost_time r).1,
          compute_f1 r.records gt_data workload, toString idx ++ ".txt"⟩]) := by
  conv_lhs => rw [reportGo]
  rw [he]

/-- A hard plan-text failure anywhere in the run list makes the whole pass
fail, independently of everything after the failing run. -/
theorem reportGo_fail (gt_data : GTData) (workload plan_dir : String)
    (wf : String → Bool) (res : RunOutput)
    (hfail : (extract_plan_text res).isOk = false) :
    ∀ (rs₁ rs₂ rs₂' : List RunOutput) (idx : Nat)
      (files : List (String × String)) (rows : List SummaryRow),
      (reportGo gt_data workload plan_dir wf (rs₁ ++ res :: rs₂) idx files
        rows).isFailed = true ∧
      reportGo gt_data workload plan_dir wf (rs₁ ++ res :: rs₂) idx files rows
        = reportGo gt_data workload plan_dir wf (rs₁ ++ res :: rs₂') idx files
          rows := by
  intro rs₁
  induction rs₁ with
  | nil =>
    intro rs₂ rs₂' idx files rows
    simp only [List.nil_append]
    cases he : extract_plan_text res with
    | ok t => rw [he] at hfail; exact Bool.noConfusion hfail
    | error e =>
      rw [reportGo_cons_error gt_data workload plan_dir wf res rs₂ idx files
          rows e he,
        reportGo_cons_error gt_data workload plan_dir wf res rs₂' idx files
          rows e he]
      exact ⟨rfl, rfl⟩
  | cons r rest ih =>
    intro rs₂ rs₂' idx files rows
    simp only [List.cons_append]
    cases he : extract_plan_text r with
    | error e =>
      rw [reportGo_cons_error gt_data workload plan_dir wf r
          (rest ++ res :: rs₂) idx files rows e he,
        reportGo_cons_error gt_data workload plan_dir wf r
          (rest ++ res :: rs₂') idx files rows e he]
      exact ⟨rfl, rfl⟩
    | ok t =>
      rw [reportGo_cons_ok gt_data workload plan_dir wf r
          (rest ++ res :: rs₂) idx files rows t he,
        reportGo_cons_ok gt_data workload plan_dir wf r
          (rest ++ res :: rs₂') idx files rows t he]
      exact ih rs₂ rs₂' (idx + 1) _ _

/-- C8: plan-text extraction is a hard failure — if any run's first per-plan
stats entry (or its execution statistics, or the plan text itself) is
missing, the whole call raises, the result carries NO summary table, and
nothing after the failing run matters (runs after it are never processed). -/
theorem c8_plan_text_hard_failure (gt_data : GTData)
    (output_csv plan_dir workload : String) (wf : String → Bool)
    (rs₁ rs₂ rs₂' : List RunOutput) (res : RunOutput)
    (hfail : (extract_plan_text res).isOk = false) :
    (write_results_and_plans (rs₁ ++ res :: rs₂) gt_data output_csv plan_dir
      workload wf).isFailed = true ∧
    write_results_and_plans (rs₁ ++ res :: rs₂) gt_data output_csv plan_dir
        workload wf =
      write_results_and_plans (rs₁ ++ res :: rs₂') gt_data output_csv plan_dir
        workload wf :=
  reportGo_fail gt_data workload plan_dir wf res hfail rs₁ rs₂ rs₂' 1 [] []

/-- Witness for C8: one good run, then a run with no execution statistics;
the pass fails and is unchanged when the runs after the bad one change. -/
theorem c8_witness :
    (write_results_and_plans
      [⟨some ⟨.stats [⟨[], some "p1"⟩]⟩, []⟩, ⟨none, []⟩,
        ⟨some ⟨.stats [⟨[], some "p3"⟩]⟩, []⟩]
      (.flat []) "out.csv" "plans" "enron" (fun _ => false)).isFailed = true ∧
    write_results_and_plans
      [⟨some ⟨.stats [⟨[], some "p1"⟩]⟩, []⟩, ⟨none, []⟩,
        ⟨some ⟨.stats [⟨[], some "p3"⟩]⟩, []⟩]
      (.flat []) "out.csv" "plans" "enron" (fun _ => false) =
    write_results_and_plans
      [⟨some ⟨.stats [⟨[], some "p1"⟩]⟩, []⟩, ⟨none, []⟩]
      (.flat []) "out.csv" "plans" "enron" (fun _ => false) :=
  c8_plan_text_hard_failure (.flat []) "out.csv" "plans" "enron"
    (fun _ => false) [⟨some ⟨.stats [⟨[], some "p1"⟩]⟩, []⟩]
    [⟨some ⟨.stats [⟨[], some "p3"⟩]⟩, []⟩] [] ⟨none, []⟩ (by decide)

/-- A pass whose runs all extract a plan text succeeds and produces exactly
the expected files and rows appended to the accumulators. -/
theorem reportGo_ok_eq (gt_data : GTData) (workload plan_dir : String)
    (wf : String → Bool) :
    ∀ (runs : List RunOutput),
      (∀ r ∈ runs, (extract_plan_text r).isOk = true) →
      ∀ (idx : Nat) (files : List (String × String)) (rows : List SummaryRow),
        reportGo gt_data workload plan_dir wf runs idx files rows =
          .ok (files ++ expectedFiles plan_dir wf idx runs)
            (rows ++ expectedRows gt_data workload idx runs) := by
  intro runs
  induction runs with
  | nil =>
    intro _ idx files rows
    show ReportResult.ok files rows = _
    rw [show expectedFiles plan_dir wf idx [] = [] from rfl,
      show expectedRows gt_data workload idx [] = [] from rfl,
      List.append_nil, List.append_nil]
  | cons r rest ih =>
    intro hok idx files rows
    cases he : extract_plan_text r with
    | error e =>
      have := hok r (List.mem_cons_self r rest)
      rw [he] at this
      exact Bool.noConfusion this
    | ok t =>
      rw [reportGo_cons_ok gt_data workload plan_dir wf r rest idx files rows
        t he]
      rw [ih (fun x hx => hok x (List.mem_cons_of_mem r hx)) (idx + 1) _ _]
      have hfeq : expectedFiles plan_dir wf idx (r :: rest) =
          (if wf (planPath plan_dir idx) then []
            else [(planPath plan_dir idx, t)]) ++
            expectedFiles plan_dir wf (idx + 1) rest := by
        show (match extract_plan_text r with
          | .ok t =>
            if wf (planPath plan_dir idx) then []
            else [(planPath plan_dir idx, t)]
          | .error _ => []) ++ _ = _
        rw [he]
      rw [hfeq, show expectedRows gt_data workload idx (r :: rest) =
        expectedRow gt_data workload idx r ::
          expectedRows gt_data workload (idx + 1) rest from rfl]
      by_cases hw : wf (planPath plan_dir idx) = true
      · rw [if_pos hw, if_pos hw]
        simp [expectedRow]
      · rw [if_neg hw, if_neg hw]
        simp [expectedRow]

/-- Length of the expected summary rows. -/
theorem expectedRows_length (gt_data : GTData) (workload : String) :
    ∀ (runs : List RunOutput) (idx : Nat),
      (expectedRows gt_data workload idx runs).length = runs.length := by
  intro runs
  induction runs with
  | nil => intro idx; rfl
  | cons r rest ih =>
    intro idx
    show (expectedRow gt_data workload idx r ::
      expectedRows gt_data workload (idx + 1) rest).length = _
    rw [List.length_cons, ih (idx + 1), List.length_cons]

/-- The `i`-th expected summary row is the row of the `i`-th run with ordinal
`idx + i`. -/
theorem expectedRows_get? (gt_data : GTData) (workload : String) :
    ∀ (runs : List RunOutput) (idx i : Nat) (hi : i < runs.length),
      (expectedRows gt_data workload idx runs).get? i =
        some (expectedRow gt_data workload (idx + i) (runs.get ⟨i, hi⟩)) := by
  intro runs
  induction runs with
  | nil => intro idx i hi; exact absurd hi (by simp)
  | cons r rest ih =>
    intro idx i hi
    cases i with
    | zero =>
      show (expectedRow gt_data workload idx r ::
        expectedRows gt_data workload (idx + 1) rest).get? 0 = _
      rw [List.get?_cons_zero]
      rfl
    | succ j =>
      show (expectedRow gt_data workload idx r ::
        expectedRows gt_data workload (idx + 1) rest).get? (j + 1) = _
      rw [List.get?_cons_succ]
      have hj : j < rest.length := by
        have := hi
        simp at this
        omega
      rw [ih (idx + 1) j hj]
      have harith : idx + 1 + j = idx + (j + 1) := by omega
      rw [harith]
      rfl

/-- Each successfully written plan-text file appears among the expected
files, under its run's path and with its run's plan text. -/
theorem expectedFiles_mem (plan_dir : String) (wf : String → Bool) :
    ∀ (runs : List RunOutput) (idx i : Nat) (hi : i < runs.length)
      (t : String),
      extract_plan_text (runs.get ⟨i, hi⟩) = .ok t →
      wf (planPath plan_dir (idx + i)) = false →
      (planPath plan_dir (idx + i), t) ∈ expectedFiles plan_dir wf idx runs := by
  intro runs
  induction runs with
  | nil => intro idx i hi; exact absurd hi (by simp)
  | cons r rest ih =>
    intro idx i hi t he hwf
    cases i with
    | zero =>
      have he0 : extract_plan_text r = .ok t := he
      rw [Nat.add_zero] at hwf ⊢
      have hfeq : expectedFiles plan_dir wf idx (r :: rest) =
          (if wf (planPath plan_dir idx) then []
            else [(planPath plan_dir idx, t)]) ++
            expectedFiles plan_dir wf (idx + 1) rest := by
        show (match extract_plan_text r with
          | .ok t =>
            if wf (planPath plan_dir idx) then []
            else [(planPath plan_dir idx, t)]
          | .error _ => []) ++ _ = _
        rw [he0]
      rw [hfeq, if_neg (by rw [hwf]; exact Bool.false_ne_true)]
      exact List.mem_append.mpr (Or.inl (List.mem_singleton.mpr rfl))
    | succ j =>
      show _ ∈ (match extract_plan_text r with
        | .ok t =>
          if wf (planPath plan_dir idx) then []
          else [(planPath plan_dir idx, t)]
        | .error _ => []) ++ expectedFiles plan_dir wf (idx + 1) rest
      apply List.mem_append.mpr
      refine Or.inr ?_
      have hj : j < rest.length := by
        have := hi
        simp at this
        omega
      have harith : idx + (j + 1) = (idx + 1) + j := by omega
      rw [harith] at hwf ⊢
      exact ih (idx + 1) j hj t he hwf

/-- C9: in a pass whose runs all yield a plan text, the run with 1-based
ordinal `idx = i + 1` gets the summary row with strategy label
`"Plan-<idx>"` and `Plan_File` field `"<idx>.txt"`, and — when its file
write succeeds — the file `<plan_text_dir>/<idx>.txt` holding exactly the
plan text extracted from that run's first per-plan stats entry. -/
theorem c9_round_trip (gt_data : GTData)
    (output_csv plan_dir workload : String) (wf : String → Bool)
    (runs : List RunOutput)
    (hok : ∀ r ∈ runs, (extract_plan_text r).isOk = true) :
    write_results_and_plans runs gt_data output_csv plan_dir workload wf =
      .ok (expectedFiles plan_dir wf 1 runs)
        (expectedRows gt_data workload 1 runs) ∧
    (expectedRows gt_data workload 1 runs).length = runs.length ∧
    ∀ (i : Nat) (hi : i < runs.length),
      ((expectedRows gt_data workload 1 runs).get? i).map SummaryRow.strategy
        = some ("Plan-" ++ toString (i + 1)) ∧
      ((expectedRows gt_data workload 1 runs).get? i).map SummaryRow.plan_file
        = some (toString (i + 1) ++ ".txt") ∧
      ∀ t, extract_plan_text (runs.get ⟨i, hi⟩) = .ok t →
        wf (planPath plan_dir (i + 1)) = false →
        (planPath plan_dir (i + 1), t) ∈ expectedFiles plan_dir wf 1 runs := by
  refine ⟨?_, expectedRows_length gt_data workload runs 1, ?_⟩
  · show reportGo gt_data workload plan_dir wf runs 1 [] [] = _
    rw [reportGo_ok_eq gt_data workload plan_dir wf runs hok 1 [] [],
      List.nil_append, List.nil_append]
  · intro i hi
    have harith : 1 + i = i + 1 := Nat.add_comm 1 i
    have hg := expectedRows_get? gt_data workload runs 1 i hi
    rw [harith] at hg
    refine ⟨?_, ?_, ?_⟩
    · rw [hg]; rfl
    · rw [hg]; rfl
    · intro t het hwf
      have := expectedFiles_mem plan_dir wf runs 1 i hi t
      rw [harith] at this
      exact this het hwf

/-- Witness for C9 at a concrete two-run pass. -/
theorem c9_witness :
    write_results_and_plans
        [⟨some ⟨.stats [⟨[("total_cost", 3)], some "plan one"⟩]⟩, []⟩,
          ⟨some ⟨.stats [⟨[], some "plan two"⟩]⟩, []⟩]
        (.flat []) "out.csv" "plans" "enron" (fun _ => false) =
      .ok (expectedFiles "plans" (fun _ => false) 1
          [⟨some ⟨.stats [⟨[("total_cost", 3)], some "plan one"⟩]⟩, []⟩,
            ⟨some ⟨.stats [⟨[], some "plan two"⟩]⟩, []⟩])
        (expectedRows (.flat []) "enron" 1
          [⟨some ⟨.stats [⟨[("total_cost", 3)], some "plan one"⟩]⟩, []⟩,
            ⟨some ⟨.stats [⟨[], some "plan two"⟩]⟩, []⟩]) :=
  (c9_round_trip (.flat []) "out.csv" "plans" "enron" (fun _ => false)
    [⟨some ⟨.stats [⟨[("total_cost", 3)], some "plan one"⟩]⟩, []⟩,
      ⟨some ⟨.stats [⟨[], some "plan two"⟩]⟩, []⟩] (by decide)).1

/-- C10: the flat scoring branch iterates only over ground-truth entries, so
both vectors have exactly one position per index entry, and a result record
whose (trimmed) key attribute is not a ground-truth key — or which lacks the
key attribute — changes neither the vectors nor the score. -/
theorem c10_extra_predictions_ignored (w : String)
    (hw : w = "enron" ∨ w = "real-estate")
    (entries : List (String × Int)) (results : List ResultRecord) :
    (flatVectors results entries (keyAttrOf w)).1.length = entries.length ∧
    (flatVectors results entries (keyAttrOf w)).2.length = entries.length ∧
    ∀ r : ResultRecord,
      (∀ v, r.attrs.lookup (keyAttrOf w) = some v →
        (entries.map Prod.fst).contains (pstrip v) = false) →
      flatVectors (r :: results) entries (keyAttrOf w) =
        flatVectors results entries (keyAttrOf w) ∧
      compute_f1 (r :: results) (.flat entries) w =
        compute_f1 results (.flat entries) w := by
  refine ⟨by simp [flatVectors], by simp [flatVectors], ?_⟩
  intro r hr
  have hfv : flatVectors (r :: results) entries (keyAttrOf w) =
      flatVectors results entries (keyAttrOf w) := by
    unfold flatVectors
    rw [Prod.mk.injEq]
    refine ⟨rfl, ?_⟩
    have hpred : ∀ e ∈ entries,
        (predictedPositives (r :: results) (keyAttrOf w)).contains e.1 =
          (predictedPositives results (keyAttrOf w)).contains e.1 := by
      intro e he
      unfold predictedPositives
      rw [List.filterMap_cons]
      cases hv : r.attrs.lookup (keyAttrOf w) with
      | none => rfl
      | some v =>
        simp only [Option.map_some']
        rw [List.contains_cons]
        have hne : e.1 ≠ pstrip v := by
          intro heq
          have hmem : e.1 ∈ entries.map Prod.fst :=
            List.mem_map_of_mem Prod.fst he
          have htrue : (entries.map Prod.fst).contains e.1 = true :=
            List.elem_eq_true_of_mem hmem
          have hfalse := hr v hv
          rw [← heq] at hfalse
          rw [htrue] at hfalse
          exact Bool.noConfusion hfalse
        rw [show (e.1 == pstrip v) = false from beq_eq_false_iff_ne.mpr hne]
        rw [Bool.false_or]
    exact List.map_congr_left
      (fun e he => by rw [hpred e he])
  refine ⟨hfv, ?_⟩
  rcases hw with rfl | rfl
  · have hcf : ∀ rs : List ResultRecord,
        compute_f1 rs (.flat entries) "enron" =
          if entries.isEmpty then (0 : ℚ)
          else if (flatVectors rs entries (keyAttrOf "enron")).1.isEmpty then 0
          else f1Binary (flatVectors rs entries (keyAttrOf "enron")).1
            (flatVectors rs entries (keyAttrOf "enron")).2 := fun rs => rfl
    rw [hcf, hcf, hfv]
  · have hcf : ∀ rs : List ResultRecord,
        compute_f1 rs (.flat entries) "real-estate" =
          if entries.isEmpty then (0 : ℚ)
          else if (flatVectors rs entries
            (keyAttrOf "real-estate")).1.isEmpty then 0
          else f1Binary (flatVectors rs entries (keyAttrOf "real-estate")).1
            (flatVectors rs entries (keyAttrOf "real-estate")).2 :=
      fun rs => rfl
    rw [hcf, hcf, hfv]

/-- Witness for C10: a record with an unlabeled identifier leaves vectors and
score unchanged. -/
theorem c10_witness :
    flatVectors [⟨[("filename", "b")]⟩] [("a", 1)] (keyAttrOf "enron") =
      flatVectors [] [("a", 1)] (keyAttrOf "enron") ∧
    compute_f1 [⟨[("filename", "b")]⟩] (.flat [("a", 1)]) "enron" =
      compute_f1 [] (.flat [("a", 1)]) "enron" :=
  (c10_extra_predictions_ignored "enron" (Or.inl rfl) [("a", 1)] []).2.2
    ⟨[("filename", "b")]⟩ (by intro v hv; cases hv; decide)
